import Mathlib

/-!
Shallow embedding of `src/ai_agent.py` (notes / tasks CLI agent).

Conventions of the embedding:
* Instants (the values produced by date parsing and by `datetime.utcnow()`)
  are modelled as integers; the ordering of instants is the integer order.
* A task's `deadline` column is the raw stored text (`Option String`), as in
  the SQLite schema; turning text into an instant is a parameter
  `p : String → Option Int` standing for `dateutil.parser.parse`
  (returning `none` where the Python call raises), and serialising an
  instant back into stored text is a parameter `iso : Int → String`
  standing for `datetime.isoformat`.
* The task store (the `tasks` table) is a list of task records; SQL
  `SELECT ... WHERE id` / `UPDATE ... WHERE id` become `findTask` /
  `updateTask`.
* Fallible editor/command paths return `Except`.
-/

namespace AIAgent

/-- Task status column: `status TEXT NOT NULL, -- todo, done, missed`. -/
inductive Status where
  | todo : Status
  | done : Status
  | missed : Status
deriving DecidableEq, Repr

/-- A row of the `tasks` table. -/
structure Task where
  id : Nat
  description : String
  deadline : Option String
  status : Status
  created_at : Int
  updated_at : Int
deriving DecidableEq, Repr

/-- Editor failures surfaced to the user ("Index out of range"). -/
inductive EditErr where
  | outOfRange : EditErr
deriving DecidableEq, Repr

/-- Command-layer failures ("Not found."). -/
inductive CmdErr where
  | notFound : CmdErr
deriving DecidableEq, Repr

/-! ## Line editor (`edit_note`, partial-edit branches) -/

/-- Helper for `splitlines`: walk the characters accumulating the current
line (in reverse); a newline emits the accumulated line, the end of input
emits it only when some character was seen since the last newline. -/
def splitlinesAux : List Char → List Char → List String
  | [], [] => []
  | [], acc => [String.mk acc.reverse]
  | c :: rest, acc =>
    if c = '\n' then String.mk acc.reverse :: splitlinesAux rest []
    else splitlinesAux rest (c :: acc)

/-- Python `str.splitlines()` restricted to the `"\n"` separator (note
content is built by `"\n".join`): split on newlines, a trailing newline
producing no extra empty line, and the empty string producing `[]`. -/
def splitlines (s : String) : List String :=
  splitlinesAux s.data []

/-- Python slice `l[:k]` on a list (negative `k` counts from the end,
clamped at the ends). -/
def pySliceTo (l : List String) (k : Int) : List String :=
  if 0 ≤ k then l.take k.toNat else l.take (l.length - (-k).toNat)

/-- Python slice `l[k:]` on a list (negative `k` counts from the end,
clamped at the ends). -/
def pySliceFrom (l : List String) (k : Int) : List String :=
  if 0 ≤ k then l.drop k.toNat else l.drop (l.length - (-k).toNat)

/-- `edit_note`, `replace N` branch: `idx = int(rng)-1`;
`if 0<=idx<len(lines): lines[idx] = new_text else: lines.append(new_text)`.
The branch never rejects an index. -/
def replaceLine (lines : List String) (i : Int) (text : String) :
    Except EditErr (List String) :=
  let idx := i - 1
  if 0 ≤ idx ∧ idx < (lines.length : Int) then
    .ok (lines.set idx.toNat text)
  else
    .ok (lines ++ [text])

/-- `edit_note`, `replace N-M` branch: `a_i = int(a)-1; b_i = int(b)-1;
new_lines = lines[:a_i] + new_chunk.splitlines() + lines[b_i+1:]`.
No bounds check is performed. -/
def replaceRange (lines : List String) (a b : Int) (block : String) :
    Except EditErr (List String) :=
  let a_i := a - 1
  let b_i := b - 1
  .ok (pySliceTo lines a_i ++ splitlines block ++ pySliceFrom lines (b_i + 1))

/-- `edit_note`, `delete N` branch: `if 0<=idx<len(lines): lines.pop(idx)
... else: print("Index out of range.")`. -/
def deleteLine (lines : List String) (i : Int) :
    Except EditErr (List String) :=
  let idx := i - 1
  if 0 ≤ idx ∧ idx < (lines.length : Int) then
    .ok (lines.eraseIdx idx.toNat)
  else
    .error .outOfRange

/-! ## LLM wrapper (`llm_query`) -/

/-- The fixed fallback sentinel string returned by `llm_query`. -/
def FALLBACK : String := "привет! я подключен, but no money no honey! :)"

/-- `llm_query`: `if openai is None or not OPENAI_KEY: return FALLBACK`;
otherwise one service call inside `try`, returning the stripped response
content, with `except Exception: return FALLBACK`.  `openaiAvailable`
models whether `import openai` succeeded, `key` the `OPENAI_KEY` global,
and `callResult` the outcome of `client.chat.completions.create` together
with the field accesses on the response (`.error` where Python raises). -/
def llm_query (openaiAvailable : Bool) (key : String)
    (callResult : Except Unit String) : String :=
  if openaiAvailable = false ∨ key = "" then FALLBACK
  else
    match callResult with
    | .ok content => content.trim
    | .error _ => FALLBACK

/-! ## Task lifecycle -/

/-- `normalize_status_on_read`, per selected row: rows are
`WHERE deadline IS NOT NULL AND status NOT IN ('done','missed')`; the
deadline text is parsed (`except Exception: continue` on failure) and if
the parsed instant is strictly before now the row gets
`status = 'missed', updated_at = now`. -/
def normalizeTask (p : String → Option Int) (now : Int) (t : Task) : Task :=
  match t.deadline with
  | none => t
  | some dl =>
    if t.status = .done ∨ t.status = .missed then t
    else
      match p dl with
      | none => t
      | some dl_dt =>
        if dl_dt < now then { t with status := .missed, updated_at := now }
        else t

/-- `normalize_status_on_read` over the whole `tasks` table. -/
def normalize_status_on_read (p : String → Option Int) (now : Int)
    (ts : List Task) : List Task :=
  ts.map (normalizeTask p now)

/-- `SELECT ... FROM tasks WHERE id = ?` (id is the primary key). -/
def findTask (ts : List Task) (tid : Nat) : Option Task :=
  ts.find? (fun t => t.id = tid)

/-- `UPDATE tasks SET ... WHERE id = ?`. -/
def updateTask (ts : List Task) (tid : Nat) (f : Task → Task) : List Task :=
  ts.map (fun t => if t.id = tid then f t else t)

/-- `complete_task` (store effect, after id parsing): select by id,
`Not found.` if absent, else unconditionally
`UPDATE tasks SET status = 'done', updated_at = ?`. -/
def complete_task (now : Int) (ts : List Task) (tid : Nat) :
    Except CmdErr (List Task) :=
  match findTask ts tid with
  | none => .error .notFound
  | some _ =>
    .ok (updateTask ts tid (fun t => { t with status := .done, updated_at := now }))

/-- `list_tasks` / `view_task` store effect: both call
`normalize_status_on_read()` before reading. -/
def list_tasks_state (p : String → Option Int) (now : Int)
    (ts : List Task) : List Task :=
  normalize_status_on_read p now ts

/-- `edit_task`, description branch (store effect): select by id,
`Not found.` if absent, else
`UPDATE tasks SET description = ?, updated_at = ?`.  `edit_task` does not
call `normalize_status_on_read`. -/
def edit_task_desc (now : Int) (ts : List Task) (tid : Nat)
    (newDesc : String) : Except CmdErr (List Task) :=
  match findTask ts tid with
  | none => .error .notFound
  | some _ =>
    .ok (updateTask ts tid
      (fun t => { t with description := newDesc, updated_at := now }))

/-- `edit_task`, deadline branch (store effect): select by id, read the new
deadline text `s`; empty input removes the deadline, parse failure keeps
the selected row's previous deadline (`new_dl = r["deadline"]`), success
stores the parsed instant serialised back to text; in every case
`UPDATE tasks SET deadline = ?, updated_at = ?` runs. -/
def edit_task_deadline (p : String → Option Int) (iso : Int → String)
    (now : Int) (ts : List Task) (tid : Nat) (s : String) :
    Except CmdErr (List Task) :=
  match findTask ts tid with
  | none => .error .notFound
  | some r =>
    let new_dl :=
      if s = "" then none
      else
        match p s with
        | some dt => some (iso dt)
        | none => r.deadline
    .ok (updateTask ts tid
      (fun t => { t with deadline := new_dl, updated_at := now }))

/-! ## Concrete sample values for closed instances -/

/-- A concrete stand-in for `dateutil.parser.parse` on stored text:
recognises the one date used in the samples, raises (`none`) elsewhere. -/
def sampleParse (s : String) : Option Int :=
  if s = "2020-01-01" then some 0 else none

/-- A concrete stand-in for `datetime.isoformat`. -/
def sampleIso (d : Int) : String := toString d

/-- A `todo` task whose stored deadline parses (to instant 0). -/
def todoTask : Task :=
  { id := 1, description := "t", deadline := some "2020-01-01",
    status := .todo, created_at := 0, updated_at := 0 }

/-- A `done` task. -/
def doneTask : Task :=
  { id := 1, description := "t", deadline := some "2020-01-01",
    status := .done, created_at := 0, updated_at := 0 }

/-- A `todo` task whose stored deadline text does not parse. -/
def badDlTask : Task :=
  { id := 2, description := "t", deadline := some "soonish",
    status := .todo, created_at := 0, updated_at := 0 }

/-! ## Claims about normalization -/

/-- C1: normalization transitions a task to `missed` exactly when the task
has a deadline whose parsed instant exists and is strictly before the
current instant and the task's status is `todo`; for `done` and `missed`
tasks and for tasks with no deadline the status is left unchanged. -/
theorem C1_normalize_missed_exactly (p : String → Option Int) (now : Int)
    (t : Task) :
    (((normalizeTask p now t).status = Status.missed ∧ t.status = Status.todo) ↔
      (t.status = Status.todo ∧
        ∃ s d, t.deadline = some s ∧ p s = some d ∧ d < now))
    ∧ ((t.status = Status.done ∨ t.status = Status.missed ∨ t.deadline = none) →
        (normalizeTask p now t).status = t.status) := by
  obtain ⟨tid, desc, dl, st, ca, ua⟩ := t
  cases dl with
  | none => cases st <;> simp [normalizeTask]
  | some s =>
    cases hps : p s with
    | none => cases st <;> simp [normalizeTask, hps]
    | some d =>
      by_cases hd : d < now
      · cases st <;> simp [normalizeTask, hps, hd]
      · cases st <;> simp [normalizeTask, hps, hd]

/-- C1 witness: a concrete `done` task with a past deadline keeps its
status under normalization. -/
theorem C1_witness :
    (normalizeTask sampleParse 5 doneTask).status = doneTask.status :=
  (C1_normalize_missed_exactly sampleParse 5 doneTask).2 (Or.inl rfl)

/-- Helper for C7: per-task idempotence of the normalization step. -/
theorem normalizeTask_idem (p : String → Option Int) (now : Int) (t : Task) :
    normalizeTask p now (normalizeTask p now t) = normalizeTask p now t := by
  obtain ⟨tid, desc, dl, st, ca, ua⟩ := t
  cases dl with
  | none => rfl
  | some s =>
    cases hps : p s with
    | none => cases st <;> simp [normalizeTask, hps]
    | some d =>
      by_cases hd : d < now
      · cases st <;> simp [normalizeTask, hps, hd]
      · cases st <;> simp [normalizeTask, hps, hd]

/-- C7: the normalization pass is idempotent on the task table, for a fixed
parse function and current instant. -/
theorem C7_normalize_idempotent (p : String → Option Int) (now : Int)
    (ts : List Task) :
    normalize_status_on_read p now (normalize_status_on_read p now ts) =
      normalize_status_on_read p now ts := by
  unfold normalize_status_on_read
  rw [List.map_map]
  exact List.map_congr_left fun t _ => normalizeTask_idem p now t

/-- C10: a `todo` task whose stored deadline text does not parse is skipped
by normalization — it is unchanged by any sequence of normalization runs
(at any current instants), and in particular stays `todo`, never `missed`. -/
theorem C10_unparseable_deadline_skipped (p : String → Option Int) (t : Task)
    (s : String) (hdl : t.deadline = some s) (hp : p s = none)
    (ht : t.status = Status.todo) :
    ∀ nows : List Int,
      nows.foldl (fun u n => normalizeTask p n u) t = t ∧
      (nows.foldl (fun u n => normalizeTask p n u) t).status = Status.todo := by
  have h1 : ∀ n, normalizeTask p n t = t := by
    intro n
    simp [normalizeTask, hdl, ht, hp]
  intro nows
  have h2 : nows.foldl (fun u n => normalizeTask p n u) t = t := by
    induction nows with
    | nil => rfl
    | cons a l ih => rw [List.foldl_cons, h1 a]; exact ih
  exact ⟨h2, by rw [h2, ht]⟩

/-- C10 witness: a concrete unparseable-deadline `todo` task survives three
normalization runs unchanged. -/
theorem C10_witness :
    [(1 : Int), 2, 3].foldl (fun u n => normalizeTask sampleParse n u) badDlTask
        = badDlTask ∧
    ([(1 : Int), 2, 3].foldl (fun u n => normalizeTask sampleParse n u)
        badDlTask).status = Status.todo :=
  C10_unparseable_deadline_skipped sampleParse badDlTask "soonish" rfl rfl rfl
    [1, 2, 3]

/-! ## Claims about the line editor -/

/-- C2 counterexample: at the non-positive 1-based index 0, the single-line
replace does not fail with `OutOfRange` and does not leave the sequence
unchanged — it appends the text as a new trailing line. -/
theorem C2_counterexample :
    replaceLine ["a"] 0 "x" = .ok ["a", "x"] ∧
    replaceLine ["a"] 0 "x" ≠ .error .outOfRange :=
  ⟨rfl, fun h => nomatch h⟩

/-- C2 amended: for every index outside `[1, len(lines)]` — below as well as
above — the single-line replace succeeds by appending the text as a new
trailing line, yielding length `len(lines) + 1`; it never fails. -/
theorem C2_amended_out_of_range_appends (lines : List String) (i : Int)
    (text : String) (h : i < 1 ∨ (lines.length : Int) < i) :
    replaceLine lines i text = .ok (lines ++ [text]) ∧
    (lines ++ [text]).length = lines.length + 1 := by
  constructor
  · have hc : ¬(0 ≤ i - 1 ∧ i - 1 < (lines.length : Int)) := by omega
    simp only [replaceLine, if_neg hc]
  · simp

/-- C2 witness: replacing line 5 of a two-line sequence appends. -/
theorem C2_witness :
    replaceLine ["a", "b"] 5 "z" = .ok ["a", "b", "z"] ∧
    (["a", "b"] ++ ["z"]).length = ["a", "b"].length + 1 :=
  C2_amended_out_of_range_appends ["a", "b"] 5 "z" (Or.inr (by decide))

/-- C3 counterexample: with bounds `a = 1`, `b = 4` on a three-line
sequence (violating `b ≤ len(lines)`), the range replace does not fail with
`OutOfRange` and does not leave the sequence unchanged — it splices by
slice semantics, here replacing everything. -/
theorem C3_counterexample :
    replaceRange ["a", "b", "c"] 1 4 "X" = .ok ["X"] ∧
    replaceRange ["a", "b", "c"] 1 4 "X" ≠ .error .outOfRange :=
  ⟨rfl, fun h => nomatch h⟩

/-- C3 amended: when `1 ≤ a ≤ b ≤ len(lines)` the range replace replaces
the span `[a, b]` with the line-split of `block` (so `replace 1-2` on
`["a","b","c"]` with `"X\nY\nZ"` gives `["X","Y","Z","c"]`); bounds outside
that range are not rejected with `OutOfRange` but spliced by Python slice
semantics. -/
theorem C3_amended_valid_range (lines : List String) (a b : Int)
    (block : String) (h1 : 1 ≤ a) (h2 : a ≤ b) (h3 : b ≤ (lines.length : Int)) :
    replaceRange lines a b block =
      .ok (lines.take (a - 1).toNat ++ splitlines block ++ lines.drop b.toNat) := by
  show Except.ok (pySliceTo lines (a - 1) ++ splitlines block ++
      pySliceFrom lines (b - 1 + 1)) = _
  have hb : b - 1 + 1 = b := by omega
  rw [hb]
  unfold pySliceTo pySliceFrom
  rw [if_pos (by omega : (0 : Int) ≤ a - 1), if_pos (by omega : (0 : Int) ≤ b)]

/-- C3 witness: Scenario E, `replace 1-2` on `["a","b","c"]` with block
`"X\nY\nZ"` yields `["X","Y","Z","c"]`. -/
theorem C3_witness :
    replaceRange ["a", "b", "c"] 1 2 "X\nY\nZ" = .ok ["X", "Y", "Z", "c"] := by
  rw [C3_amended_valid_range ["a", "b", "c"] 1 2 "X\nY\nZ" (by decide)
    (by decide) (by decide)]
  rfl

/-- C8: for every valid 1-based index `1 ≤ i ≤ len(lines)`, the single-line
replace succeeds with a sequence of the same length that agrees with the
original at every position other than `i`. -/
theorem C8_replaceLine_valid (lines : List String) (i : Int) (text : String)
    (h1 : 1 ≤ i) (h2 : i ≤ (lines.length : Int)) :
    ∃ out, replaceLine lines i text = .ok out ∧
      out.length = lines.length ∧
      ∀ j : Nat, j ≠ (i - 1).toNat → out[j]? = lines[j]? := by
  refine ⟨lines.set (i - 1).toNat text, ?_, ?_, ?_⟩
  · have hc : 0 ≤ i - 1 ∧ i - 1 < (lines.length : Int) := by omega
    simp only [replaceLine, if_pos hc]
  · exact List.length_set lines (i - 1).toNat text
  · intro j hj
    exact List.getElem?_set_ne (fun h => hj h.symm)

/-- C8 witness: replacing line 2 of `["a","b","c"]` keeps length 3 and the
other positions. -/
theorem C8_witness :
    ∃ out, replaceLine ["a", "b", "c"] 2 "B" = .ok out ∧
      out.length = ["a", "b", "c"].length ∧
      ∀ j : Nat, j ≠ ((2 : Int) - 1).toNat → out[j]? = ["a", "b", "c"][j]? :=
  C8_replaceLine_valid ["a", "b", "c"] 2 "B" (by decide) (by decide)

/-! ## Claim about the LLM wrapper -/

/-- C9: whenever the client library is unavailable, the credential is the
empty string, or the service call fails, `llm_query` returns the fixed
fallback sentinel (and, being a total function of those outcomes, it never
propagates an error). -/
theorem C9_llm_query_fallback (openaiAvailable : Bool) (key : String)
    (callResult : Except Unit String)
    (h : openaiAvailable = false ∨ key = "" ∨ ∃ e, callResult = .error e) :
    llm_query openaiAvailable key callResult = FALLBACK := by
  unfold llm_query
  rcases h with h | h | ⟨e, rfl⟩
  · rw [if_pos (Or.inl h)]
  · rw [if_pos (Or.inr h)]
  · by_cases hk : openaiAvailable = false ∨ key = ""
    · rw [if_pos hk]
    · rw [if_neg hk]

/-- C9 witness: a failing service call with a configured key and available
library still yields the sentinel. -/
theorem C9_witness :
    llm_query true "sk-123" (.error ()) = FALLBACK :=
  C9_llm_query_fallback true "sk-123" (.error ()) (Or.inr (Or.inr ⟨(), rfl⟩))

/-! ## Claims about the task commands -/

/-- Helper: every element of `updateTask ts tid f` whose id is `tid` is the
image under `f` of an element of `ts` with id `tid`. -/
theorem mem_updateTask_of_id (ts : List Task) (tid : Nat) (f : Task → Task)
    (u : Task) (hu : u ∈ updateTask ts tid f) (huid : u.id = tid) :
    ∃ v ∈ ts, v.id = tid ∧ u = f v := by
  rcases List.mem_map.mp hu with ⟨v, hv, heq⟩
  by_cases h : v.id = tid
  · exact ⟨v, hv, h, by rw [← heq, if_pos h]⟩
  · rw [if_neg h] at heq
    exact absurd (heq ▸ huid) h

/-- Helper: elements of `ts` whose id is not `tid` survive
`updateTask ts tid f` unchanged. -/
theorem mem_updateTask_of_ne (ts : List Task) (tid : Nat) (f : Task → Task)
    (u : Task) (hu : u ∈ ts) (huid : u.id ≠ tid) :
    u ∈ updateTask ts tid f :=
  List.mem_map.mpr ⟨u, hu, by rw [if_neg huid]⟩

/-- C4 counterexample: completing a task that is already `done` is not a
no-op error — the command succeeds and bumps the task's updated timestamp
from 0 to 5. -/
theorem C4_counterexample :
    doneTask.status = Status.done ∧
    complete_task 5 [doneTask] 1 = .ok [{ doneTask with updated_at := 5 }] ∧
    ({ doneTask with updated_at := 5 } : Task).updated_at ≠ doneTask.updated_at :=
  ⟨rfl, rfl, by decide⟩

/-- C4 amended: `Complete` on a found task always succeeds — `todo → done`
and `missed → done`, but also `done → done` with a bumped updated
timestamp rather than a no-op error; tasks with other ids are unchanged. -/
theorem C4_amended_complete_always (now : Int) (ts : List Task) (tid : Nat)
    (t : Task) (hfind : findTask ts tid = some t) :
    ∃ ts2, complete_task now ts tid = .ok ts2 ∧
      (∀ u ∈ ts2, u.id = tid → u.status = Status.done ∧ u.updated_at = now) ∧
      (∀ u ∈ ts, u.id ≠ tid → u ∈ ts2) := by
  refine ⟨_, by rw [complete_task, hfind], ?_, ?_⟩
  · intro u hu huid
    rcases mem_updateTask_of_id _ _ _ u hu huid with ⟨v, _, _, rfl⟩
    exact ⟨rfl, rfl⟩
  · intro u hu huid
    exact mem_updateTask_of_ne _ _ _ u hu huid

/-- C4 witness: completing a concrete `todo` task yields `done` with the
new updated timestamp. -/
theorem C4_witness :
    ∃ ts2, complete_task 5 [todoTask] 1 = .ok ts2 ∧
      (∀ u ∈ ts2, u.id = 1 → u.status = Status.done ∧ u.updated_at = 5) ∧
      (∀ u ∈ [todoTask], u.id ≠ 1 → u ∈ ts2) :=
  C4_amended_complete_always 5 [todoTask] 1 todoTask rfl

/-- C5 counterexample: editing the deadline of a concrete task with
unparseable date text keeps the status, description and deadline unchanged
but still bumps the updated timestamp from 0 to 5 — so the updated
timestamp changes without any status/description/deadline change. -/
theorem C5_counterexample :
    edit_task_deadline sampleParse sampleIso 5 [todoTask] 1 "nonsense" =
      .ok [{ todoTask with updated_at := 5 }] ∧
    ({ todoTask with updated_at := 5 } : Task).deadline = todoTask.deadline ∧
    ({ todoTask with updated_at := 5 } : Task).description =
      todoTask.description ∧
    ({ todoTask with updated_at := 5 } : Task).status = todoTask.status ∧
    ({ todoTask with updated_at := 5 } : Task).updated_at ≠ todoTask.updated_at :=
  ⟨rfl, rfl, rfl, rfl, by decide⟩

/-- C5 amended: a deadline edit whose non-empty date input does not parse
keeps the found task's deadline value but still sets its updated timestamp
to now — the updated timestamp is bumped by every lifecycle write, not only
when status, description or deadline actually change. -/
theorem C5_amended_bad_date_bumps_updated (p : String → Option Int)
    (iso : Int → String) (now : Int) (ts : List Task) (tid : Nat) (s : String)
    (t : Task) (hfind : findTask ts tid = some t) (hs : s ≠ "")
    (hp : p s = none) :
    ∃ ts2, edit_task_deadline p iso now ts tid s = .ok ts2 ∧
      ∀ u ∈ ts2, u.id = tid → u.deadline = t.deadline ∧ u.updated_at = now := by
  have hstep : edit_task_deadline p iso now ts tid s =
      .ok (updateTask ts tid
        (fun u => { u with deadline := t.deadline, updated_at := now })) := by
    unfold edit_task_deadline
    rw [hfind]
    simp only [if_neg hs, hp]
  refine ⟨_, hstep, ?_⟩
  intro u hu huid
  rcases mem_updateTask_of_id _ _ _ u hu huid with ⟨v, _, _, rfl⟩
  exact ⟨rfl, rfl⟩

/-- C5 witness: the amended behavior at a concrete store and unparseable
input. -/
theorem C5_witness :
    ∃ ts2, edit_task_deadline sampleParse sampleIso 5 [todoTask] 1 "nonsense"
        = .ok ts2 ∧
      ∀ u ∈ ts2, u.id = 1 → u.deadline = todoTask.deadline ∧ u.updated_at = 5 :=
  C5_amended_bad_date_bumps_updated sampleParse sampleIso 5 [todoTask] 1
    "nonsense" todoTask rfl (by decide) rfl

/-- C6 counterexample: the task-edit command does not normalize first — on
a store holding a `todo` task whose parsed deadline (instant 0) is strictly
before now (5), editing the description leaves the task `todo`, whereas the
same edit on the normalized store leaves it `missed`. -/
theorem C6_counterexample :
    sampleParse "2020-01-01" = some 0 ∧ (0 : Int) < 5 ∧
    ∃ ts2 ts3,
      edit_task_desc 5 [todoTask] 1 "x" = .ok ts2 ∧
      edit_task_desc 5 (list_tasks_state sampleParse 5 [todoTask]) 1 "x"
        = .ok ts3 ∧
      ts2.map Task.status = [Status.todo] ∧
      ts3.map Task.status = [Status.missed] :=
  ⟨rfl, by decide, _, _, rfl, rfl, rfl, rfl⟩

/-- C6 amended: normalization runs before the listing and viewing commands
(`tasks list`, `tasks view`) but not before `Complete` or the task edits;
after listing/viewing, no stored task is `todo` with a parseable deadline
strictly before the current instant. -/
theorem C6_amended_list_view_normalized (p : String → Option Int) (now : Int)
    (ts : List Task) (t : Task) (ht : t ∈ list_tasks_state p now ts)
    (htodo : t.status = Status.todo) (s : String) (d : Int)
    (hs : t.deadline = some s) (hd : p s = some d) : ¬ d < now := by
  rcases List.mem_map.mp ht with ⟨u, _, rfl⟩
  intro hlt
  obtain ⟨tid2, desc, dl, st, ca, ua⟩ := u
  cases dl with
  | none => simp [normalizeTask] at hs
  | some s2 =>
    cases st with
    | done => simp [normalizeTask] at htodo
    | missed => simp [normalizeTask] at htodo
    | todo =>
      cases hps : p s2 with
      | none =>
        simp [normalizeTask, hps] at hs
        subst hs
        rw [hps] at hd
        exact Option.noConfusion hd
      | some d2 =>
        by_cases h2 : d2 < now
        · simp [normalizeTask, hps, h2] at htodo
        · simp [normalizeTask, hps, h2] at hs
          subst hs
          rw [hps] at hd
          injection hd with h3
          omega

/-- C6 witness: on an instant (-5) before the sample deadline instant, the
task survives listing as `todo` and the theorem yields the non-overdue
fact. -/
theorem C6_witness :
    todoTask ∈ list_tasks_state sampleParse (-5) [todoTask] ∧
    ¬ (0 : Int) < -5 :=
  ⟨by decide,
    C6_amended_list_view_normalized sampleParse (-5) [todoTask] todoTask
      (by decide) rfl "2020-01-01" 0 rfl rfl⟩

end AIAgent
